import Mathlib

/-!
Verification of the stabilitypool module (a replicated stability-pool
plugged into a BFT federation).

The embedding translates the Rust sources into Lean:
  * `src/src/account.rs` — `LockedBalance`, `AccountBalance`,
    `total_balance`, `can_add_amount`, `AccountDeposit`, `AccountWithdrawal`;
  * `src/stabilitypool-server/src/lib.rs` — `validate_input`, `apply_input`,
    `validate_output`, `apply_output`, `output_status`;
  * `src/stabilitypool-server/src/api.rs` — the `/account` handler and
    `propose_action`.

Machine integers: msat amounts, epoch ids, sequence numbers and prices are
`u64` in the source and are modelled as `Nat` with explicit `≤ U64MAX`
bounds where overflow matters; `checked_add`/`checked_sub` become
`checkedAdd`/`checkedSub` returning `Option Nat`.

Key-value store: the module's transactional database (account balances,
deposit outcomes, epoch outcomes, epoch-end votes, staged actions, and the
two epoch counters) is modelled as the `Store` structure whose maps are
association lists with deterministic in-place update (`insertA`).  Account
public keys (32-byte x-only), outpoints and peer ids are opaque identifiers
in the source; they are modelled as `Nat`.

A Rust `panic!`/`expect` is modelled by an explicit outcome constructor
(`panicked`, or `Option.none` for the api handler); a failing
`insert_new_entry` or a returned error aborts the enclosing store
transaction, so the paired result store is the unmodified input store.
-/

/-- `u64::MAX` — msat amounts, epoch ids and sequences are u64 in the source. -/
def U64MAX : Nat := 2 ^ 64 - 1

/-- Rust `u64::checked_add` on the Nat model. -/
def checkedAdd (a b : Nat) : Option Nat :=
  if a + b ≤ U64MAX then some (a + b) else Option.none

/-- Rust `u64::checked_sub` on the Nat model. -/
def checkedSub (a b : Nat) : Option Nat :=
  if b ≤ a then some (a - b) else Option.none

/-- Association list with Nat-like keys; models one keyspace of the module
database.  Lookup returns the value at the first matching key. -/
def lookupA {α β : Type} [DecidableEq α] : List (α × β) → α → Option β
  | [], _ => Option.none
  | (k', v) :: rest, k => if k = k' then some v else lookupA rest k

/-- `insert_entry`: overwrite in place when the key is present, else append. -/
def insertA {α β : Type} [DecidableEq α] : List (α × β) → α → β → List (α × β)
  | [], k, v => [(k, v)]
  | (k', v') :: rest, k, v =>
      if k = k' then (k, v) :: rest else (k', v') :: insertA rest k v

/-- `insert_new_entry`: fails (aborting the transaction) when the key exists. -/
def insertNewA {α β : Type} [DecidableEq α] (l : List (α × β)) (k : α) (v : β) :
    Option (List (α × β)) :=
  match lookupA l k with
  | some _ => Option.none
  | Option.none => some (insertA l k v)

/-- `LockedBalance` from `src/src/account.rs`: the locked side of an account. -/
inductive LockedBalance : Type
  | seeker (a : Nat)
  | provider (a : Nat)
  | none
deriving DecidableEq, Repr

/-- `LockedBalance::amount`. -/
def LockedBalance.amount : LockedBalance → Nat
  | .seeker a => a
  | .provider a => a
  | .none => 0

/-- `AccountBalance` from `src/src/account.rs`. -/
structure AccountBalance : Type where
  unlocked : Nat
  locked : LockedBalance
deriving DecidableEq, Repr

/-- `Default for AccountBalance`: zero unlocked, no locked side. -/
def AccountBalance.default : AccountBalance :=
  { unlocked := 0, locked := LockedBalance.none }

/-- `AccountBalance::total_balance`: the checked-addition fold over
`[unlocked, locked.amount()]` starting from 0. -/
def AccountBalance.total_balance (b : AccountBalance) : Option Nat :=
  (checkedAdd 0 b.unlocked).bind fun acc => checkedAdd acc b.locked.amount

/-- `AccountBalance::can_add_amount`: the checked-addition fold over
`[unlocked, locked.amount(), amount]` succeeds. -/
def AccountBalance.can_add_amount (b : AccountBalance) (amount : Nat) : Bool :=
  (((checkedAdd 0 b.unlocked).bind fun acc => checkedAdd acc b.locked.amount).bind
    fun acc => checkedAdd acc amount).isSome

/-- `AccountDeposit` (= `PoolOutput`). -/
structure AccountDeposit : Type where
  account : Nat
  amount : Nat
deriving DecidableEq, Repr

/-- `AccountWithdrawal` (= `PoolInput`). -/
structure AccountWithdrawal : Type where
  account : Nat
  amount : Nat
deriving DecidableEq, Repr

/-- `EpochEnd` consensus item: a peer's closing-price vote for an epoch.
Modelled from the spec: `epoch.rs` is absent from the sources; the spec
treats items whose `price` is `None` as never emitted (oracle failure
suppresses the item), so the model carries a definite price. -/
structure EpochEnd : Type where
  epochId : Nat
  price : Nat
deriving DecidableEq, Repr

/-- `EpochOutcome`: per-epoch record `{feerate, seeker_total, provider_total,
settled_price}` (spec §3 data model). -/
structure EpochOutcome : Type where
  feerate : Nat
  seekerTotal : Nat
  providerTotal : Nat
  settledPrice : Option Nat
deriving DecidableEq, Repr

/-- Body of a user action (spec §4.3): seeker lock/unlock or provider bid. -/
inductive ActionBody : Type
  | seekerLock (amount : Nat)
  | seekerUnlock (amount : Nat)
  | providerBid (maxAmount minFeerate : Nat)
deriving DecidableEq, Repr

/-- `ActionProposed`: a signed `Action{epoch_id, sequence, account_id, body}`.
Modelled from the spec: `action.rs` is absent from the sources; BIP-340
Schnorr signature verification over the canonical encoding is abstracted as
the validity flag `sigValid` (the result of `verify_signature`). -/
structure ActionProposed : Type where
  epochId : Nat
  sequence : Nat
  accountId : Nat
  body : ActionBody
  sigValid : Bool
deriving DecidableEq, Repr

/-- `ActionStaged`: the persisted last-known action of an account.
Modelled from the spec (`action.rs` absent): it exposes the same
`epoch_id`/`sequence`/`body` accessors as `ActionProposed`. -/
structure ActionStaged : Type where
  epochId : Nat
  sequence : Nat
  accountId : Nat
  body : ActionBody
deriving DecidableEq, Repr

/-- `impl From<ActionProposed> for ActionStaged` (modelled from the spec). -/
def ActionProposed.toStaged (p : ActionProposed) : ActionStaged :=
  { epochId := p.epochId, sequence := p.sequence,
    accountId := p.accountId, body := p.body }

/-- The module's keyspaces in the transactional store (spec §6 layout):
`0xE0` account balances, `0xE1` deposit outcomes, `0xE2` epoch outcomes,
`0xE3`/`0xE4` the last-ended/last-settled singletons (absent on a fresh
store, hence `Option`), `0xE5` epoch-end votes, `0xE6` staged actions. -/
structure Store : Type where
  accounts : List (Nat × AccountBalance)
  depositOutcomes : List (Nat × Nat)
  epochOutcomes : List (Nat × EpochOutcome)
  lastEnded : Option Nat
  lastSettled : Option Nat
  epochEndVotes : List (Nat × EpochEnd)
  staged : List (Nat × ActionStaged)
deriving DecidableEq, Repr

/-- The empty (fresh) store. -/
def Store.empty : Store :=
  { accounts := [], depositOutcomes := [], epochOutcomes := [],
    lastEnded := Option.none, lastSettled := Option.none,
    epochEndVotes := [], staged := [] }

/-- `EpochState::current_epoch_id`.  Modelled from the spec (`epoch.rs`
absent): `current_epoch_id = last_ended + 1`, with `last_ended` defaulting
to 0 on a fresh store. -/
def currentEpochId (s : Store) : Nat := s.lastEnded.getD 0 + 1

/-- `EpochState::staging_epoch_id = current_epoch_id + 1` (spec §3). -/
def stagingEpochId (s : Store) : Nat := currentEpochId s + 1

/-- `WithdrawalError` from `src/stabilitypool-server/src/lib.rs` (the
source's spelling `UnavaliableFunds { amount, avaliable }` is kept). -/
inductive WithdrawalError : Type
  | unavaliableFunds (amount avaliable : Nat)
deriving DecidableEq, Repr

/-- `StabilityPoolError` from `src/stabilitypool-server/src/lib.rs`. -/
inductive StabilityPoolError : Type
  | somethingDummyWentWrong
  | depositTooLarge
deriving DecidableEq, Repr

/-- `TransactionItemAmount { amount, fee }`. -/
structure TransactionItemAmount : Type where
  amount : Nat
  fee : Nat
deriving DecidableEq, Repr

/-- `InputMeta { amount, puk_keys }`: required signers are x-only keys. -/
structure InputMeta : Type where
  amount : TransactionItemAmount
  pukKeys : List Nat
deriving DecidableEq, Repr

/-- `StabilityPool::validate_input` (withdraw validation): reads the
account's unlocked balance (absent record counts as 0) and fails with
`UnavaliableFunds` when it is below the requested amount; otherwise returns
the amount with zero fee and the account key as sole required signer.  The
second component is the store after the handler ran (it only reads). -/
def validateInput (s : Store) (w : AccountWithdrawal) :
    Except WithdrawalError InputMeta × Store :=
  let avaliable := ((lookupA s.accounts w.account).map AccountBalance.unlocked).getD 0
  if avaliable < w.amount then
    (Except.error (WithdrawalError.unavaliableFunds w.amount avaliable), s)
  else
    (Except.ok { amount := { amount := w.amount, fee := 0 },
                 pukKeys := [w.account] }, s)

/-- `StabilityPool::validate_output` (deposit validation): when an account
record exists, fails with `DepositTooLarge` unless `can_add_amount` holds;
otherwise returns the amount with zero fee.  The second component is the
store after the handler ran (it only reads). -/
def validateOutput (s : Store) (d : AccountDeposit) :
    Except StabilityPoolError TransactionItemAmount × Store :=
  match lookupA s.accounts d.account with
  | some account =>
      if account.can_add_amount d.amount then
        (Except.ok { amount := d.amount, fee := 0 }, s)
      else
        (Except.error StabilityPoolError.depositTooLarge, s)
  | Option.none => (Except.ok { amount := d.amount, fee := 0 }, s)

/-- Outcome of `apply_input`: module error, a panic (`expect` on
`checked_sub`), or success with the input meta. -/
inductive InputApplyOutcome : Type
  | err (e : WithdrawalError)
  | panicked
  | ok (m : InputMeta)
deriving DecidableEq, Repr

/-- `StabilityPool::apply_input`: re-validates, then decrements the
account's unlocked balance by the withdrawn amount via `checked_sub`
(the `expect` there is the `panicked` outcome).  On any failure the
transaction aborts, so the returned store is the input store. -/
def applyInput (s : Store) (w : AccountWithdrawal) : InputApplyOutcome × Store :=
  match (validateInput s w).1 with
  | Except.error e => (InputApplyOutcome.err e, s)
  | Except.ok meta =>
      let account := (lookupA s.accounts w.account).getD AccountBalance.default
      match checkedSub account.unlocked w.amount with
      | Option.none => (InputApplyOutcome.panicked, s)
      | some u' =>
          (InputApplyOutcome.ok meta,
           { s with accounts :=
               insertA s.accounts w.account { account with unlocked := u' } })

/-- Outcome of `apply_output`: module error, a panic (`expect` on
`checked_add`), a failed `insert_new_entry` on an already-present outpoint
key, or success. -/
inductive OutputApplyOutcome : Type
  | err (e : StabilityPoolError)
  | panicked
  | duplicateOutpoint
  | ok (a : TransactionItemAmount)
deriving DecidableEq, Repr

/-- `StabilityPool::apply_output`: re-validates, increments the account's
unlocked balance via `checked_add` (its `expect` is the `panicked` outcome),
and records `outpoint → account` with `insert_new_entry`, which fails when
the outpoint key already exists.  On any failure the transaction aborts, so
the returned store is the input store. -/
def applyOutput (s : Store) (d : AccountDeposit) (outpoint : Nat) :
    OutputApplyOutcome × Store :=
  match (validateOutput s d).1 with
  | Except.error e => (OutputApplyOutcome.err e, s)
  | Except.ok txoAmount =>
      let account := (lookupA s.accounts d.account).getD AccountBalance.default
      match checkedAdd account.unlocked d.amount with
      | Option.none => (OutputApplyOutcome.panicked, s)
      | some u' =>
          let s1 : Store :=
            { s with accounts :=
                insertA s.accounts d.account { account with unlocked := u' } }
          match insertNewA s1.depositOutcomes outpoint d.account with
          | Option.none => (OutputApplyOutcome.duplicateOutpoint, s)
          | some dep => (OutputApplyOutcome.ok txoAmount,
                         { s1 with depositOutcomes := dep })

/-- `PoolOutputOutcome`: the account a deposit outpoint credited. -/
structure PoolOutputOutcome : Type where
  account : Nat
deriving DecidableEq, Repr

/-- `StabilityPool::output_status`: the recorded account for an outpoint. -/
def outputStatus (s : Store) (outpoint : Nat) : Option PoolOutputOutcome :=
  (lookupA s.depositOutcomes outpoint).map PoolOutputOutcome.mk

/-- `SideResponse` from `src/stabilitypool-server/src/api.rs`. -/
inductive SideResponse : Type
  | provider
  | seeker
deriving DecidableEq, Repr

/-- `LockedBalanceResponse` from `src/stabilitypool-server/src/api.rs`. -/
structure LockedBalanceResponse : Type where
  value : Nat
  side : SideResponse
  epochId : Nat
  epochStartPrice : Nat
  epoch : EpochOutcome
deriving DecidableEq, Repr

/-- `BalanceResponse` from `src/stabilitypool-server/src/api.rs`. -/
structure BalanceResponse : Type where
  unlocked : Nat
  locked : Option LockedBalanceResponse
deriving DecidableEq, Repr

/-- The `/account` handler (`account` in `src/stabilitypool-server/src/api.rs`):
with no balance record it returns `{unlocked: 0, locked: None}` at once;
with a record it first reads `epoch_outcomes[current_epoch_id]`
(`expect("must exist")`) and the settled price of
`epoch_outcomes[current_epoch_id - 1]` (saturating subtraction;
`expect("must exist")` then `expect("should be settled")`), and only then
builds the response from the locked side.  A failing `expect` is a panic,
modelled as `Option.none`. -/
def accountHandler (s : Store) (accountId : Nat) : Option BalanceResponse :=
  let epochId := currentEpochId s
  match lookupA s.accounts accountId with
  | Option.none => some { unlocked := 0, locked := Option.none }
  | some account =>
      match lookupA s.epochOutcomes epochId with
      | Option.none => Option.none
      | some epochOutcome =>
          match lookupA s.epochOutcomes (epochId - 1) with
          | Option.none => Option.none
          | some prevOutcome =>
              match prevOutcome.settledPrice with
              | Option.none => Option.none
              | some epochStartPrice =>
                  match account.locked with
                  | LockedBalance.seeker locked =>
                      some { unlocked := account.unlocked,
                             locked := some { value := locked,
                                              side := SideResponse.seeker,
                                              epochId := epochId,
                                              epochStartPrice := epochStartPrice,
                                              epoch := epochOutcome } }
                  | LockedBalance.provider locked =>
                      some { unlocked := account.unlocked,
                             locked := some { value := locked,
                                              side := SideResponse.provider,
                                              epochId := epochId,
                                              epochStartPrice := epochStartPrice,
                                              epoch := epochOutcome } }
                  | LockedBalance.none =>
                      some { unlocked := account.unlocked, locked := Option.none }

/-- `ApiError` taxonomy relevant to the verified endpoints. -/
inductive ApiError : Type
  | badRequest
  | notFound
deriving DecidableEq, Repr

/-- The in-memory pending proposal pool (`ActionProposedDb`), keyed by
account id; volatile, separate from the persisted store. -/
def PendingPool : Type := List (Nat × ActionProposed)

/-- The most recent known action for an account as `propose_action` sees
it: first the in-memory pending pool, and only when absent there, the
persisted staged action. -/
def mostRecentAction (s : Store) (pool : PendingPool) (accountId : Nat) :
    Option ActionStaged :=
  match lookupA pool accountId with
  | some p => some p.toStaged
  | Option.none => lookupA s.staged accountId

/-- `propose_action` from `src/stabilitypool-server/src/api.rs` (the
`/action_propose` ingress): rejects a bad signature, an epoch id other than
the staging epoch, and a sequence not above the most recent known action of
the same epoch; otherwise inserts the request into the pending pool
(overwriting any prior entry for the account).  The returned store is the
store after the handler ran (it only reads the persisted state). -/
def proposeAction (s : Store) (pool : PendingPool) (request : ActionProposed) :
    Except ApiError PendingPool × Store :=
  if request.sigValid = false then (Except.error ApiError.badRequest, s)
  else
    let nextEpoch := stagingEpochId s
    if request.epochId ≠ nextEpoch then (Except.error ApiError.badRequest, s)
    else
      match mostRecentAction s pool request.accountId with
      | some recent =>
          if request.epochId = recent.epochId ∧ request.sequence ≤ recent.sequence then
            (Except.error ApiError.badRequest, s)
          else
            (Except.ok (insertA pool request.accountId request), s)
      | Option.none =>
          (Except.ok (insertA pool request.accountId request), s)

/-- Outcome classification of a consensus item (`ConsensusItemOutcome`);
the reason strings of `Ignored`/`Banned` are elided. -/
inductive ConsensusItemOutcome : Type
  | applied
  | ignored
  | banned
deriving DecidableEq, Repr

/-- Insertion into a sorted list of prices, ascending. -/
def insertSorted (x : Nat) : List Nat → List Nat
  | [] => [x]
  | y :: ys => if x ≤ y then x :: y :: ys else y :: insertSorted x ys

/-- Ascending insertion sort of a price list. -/
def sortPrices (l : List Nat) : List Nat := l.foldr insertSorted []

/-- Median of a vote price list, ties for an even count broken by taking the
lower of the two middle values (spec §4.2 finalization step 1): the element
at index `(n-1)/2` of the ascending sort. -/
def medianPrice (l : List Nat) : Nat :=
  (sortPrices l).getD (((sortPrices l).length - 1) / 2) 0

/-- The prices of all recorded votes for a given epoch. -/
def votesFor (votes : List (Nat × EpochEnd)) (epochId : Nat) : List Nat :=
  (votes.filter fun p => p.2.epochId == epochId).map fun p => p.2.price

/-- Whether a newly arrived `EpochEnd` from `peer` is a double vote: the
peer's recorded vote already targets the current epoch. -/
def isDoubleVote (s : Store) (peer : Nat) : Bool :=
  match lookupA s.epochEndVotes peer with
  | some prev => prev.epochId == currentEpochId s
  | Option.none => false

/-- `epoch::process_consensus_item` for an `EpochEnd` vote.  Modelled from
the spec (`epoch.rs` is absent from the sources), §4.2: a vote for a past
epoch is Ignored, a vote from the future is Banned, a double vote is
Banned; otherwise the vote is recorded and, when the recorded votes for the
current epoch reach `price_threshold`, the epoch closes: the settled price
is the median of the recorded votes, `epoch_outcomes[current]` is
materialized with that price, `last_ended` and `last_settled` advance to
the current epoch, and the vote map is cleared.  The settlement aggregates
`feerate`/`seeker_total`/`provider_total` come from the matching algorithm,
which no examined claim constrains; the model materializes them as zero. -/
def processEpochEnd (priceThreshold : Nat) (s : Store) (peer : Nat)
    (item : EpochEnd) : ConsensusItemOutcome × Store :=
  let current := currentEpochId s
  if item.epochId < current then (ConsensusItemOutcome.ignored, s)
  else if current < item.epochId then (ConsensusItemOutcome.banned, s)
  else if isDoubleVote s peer then (ConsensusItemOutcome.banned, s)
  else
    let votes' := insertA s.epochEndVotes peer item
    let prices := votesFor votes' current
    if priceThreshold ≤ prices.length then
      (ConsensusItemOutcome.applied,
       { s with
           epochOutcomes := insertA s.epochOutcomes current
             { feerate := 0, seekerTotal := 0, providerTotal := 0,
               settledPrice := some (medianPrice prices) },
           lastEnded := some current,
           lastSettled := some current,
           epochEndVotes := [] })
    else
      (ConsensusItemOutcome.applied, { s with epochEndVotes := votes' })


/-- Equality on fallible results is decidable (for concrete evaluation). -/
instance {e a : Type} [DecidableEq e] [DecidableEq a] : DecidableEq (Except e a) := fun x y =>
  match x, y with
  | Except.error ex, Except.error ey =>
      decidable_of_iff (ex = ey) ⟨fun h => by rw [h], fun h => by cases h; rfl⟩
  | Except.error _, Except.ok _ => isFalse fun hc => Except.noConfusion hc
  | Except.ok _, Except.error _ => isFalse fun hc => Except.noConfusion hc
  | Except.ok ax, Except.ok ay =>
      decidable_of_iff (ax = ay) ⟨fun h => by rw [h], fun h => by cases h; rfl⟩

/-- The unlocked balance `validate_input` reads: an absent record counts
as zero. -/
def unlockedOf (s : Store) (account : Nat) : Nat :=
  ((lookupA s.accounts account).map AccountBalance.unlocked).getD 0

/-- Concrete store for the C1 witness: one account (key 1) with
`unlocked = 100` and nothing locked. -/
def storeC1 : Store :=
  { Store.empty with accounts := [(1, { unlocked := 100, locked := LockedBalance.none })] }

/-- Concrete store for the C2 witness: one account (key 1) with
`unlocked = u64::MAX - 5` and nothing locked. -/
def storeC2 : Store :=
  { Store.empty with
      accounts := [(1, { unlocked := U64MAX - 5, locked := LockedBalance.none })] }

/-- Invariant I1: every stored account balance record satisfies
`unlocked + |locked| ≤ u64::MAX`. -/
def storeInv (s : Store) : Prop :=
  ∀ p ∈ s.accounts, p.2.unlocked + p.2.locked.amount ≤ U64MAX

instance (s : Store) : Decidable (storeInv s) := by
  unfold storeInv
  infer_instance

/-- The rejection condition of `propose_action` as the source checks it:
bad signature, epoch id other than the staging epoch, or a most recent
known action with the same epoch and a sequence at or above the request's. -/
def badProposalB (s : Store) (pool : PendingPool) (request : ActionProposed) : Bool :=
  !request.sigValid ||
  (request.epochId != stagingEpochId s) ||
  (match mostRecentAction s pool request.accountId with
   | some recent =>
       (request.epochId == recent.epochId) && decide (request.sequence ≤ recent.sequence)
   | Option.none => false)

/-- Store for the C5 witness: fresh epoch state (staging epoch 2), nothing
staged. -/
def storeC5 : Store := Store.empty

/-- C5 witness request `{epoch=2, seq=5, SeekerLock 500}` from account 9. -/
def reqSeq5 : ActionProposed :=
  { epochId := 2, sequence := 5, accountId := 9,
    body := ActionBody.seekerLock 500, sigValid := true }

/-- C5 witness request `{epoch=2, seq=4, SeekerLock 600}` from account 9. -/
def reqSeq4 : ActionProposed :=
  { epochId := 2, sequence := 4, accountId := 9,
    body := ActionBody.seekerLock 600, sigValid := true }

/-- C5 witness request `{epoch=2, seq=6, SeekerLock 700}` from account 9. -/
def reqSeq6 : ActionProposed :=
  { epochId := 2, sequence := 6, accountId := 9,
    body := ActionBody.seekerLock 700, sigValid := true }

/-- Store for the C6 witness: two recorded votes for epoch 1 (prices 9800
and 10000 from peers 0 and 1); the current epoch is 1. -/
def storeC6 : Store :=
  { Store.empty with
      epochEndVotes :=
        [(0, { epochId := 1, price := 9800 }),
         (1, { epochId := 1, price := 10000 })] }

/-! ### Helper lemmas on the store primitives -/

theorem checkedAdd_eq_some {a b c : Nat} (h : checkedAdd a b = some c) :
    c = a + b ∧ a + b ≤ U64MAX := by
  unfold checkedAdd at h
  split at h <;> simp_all

theorem checkedSub_eq_some {a b c : Nat} (h : checkedSub a b = some c) :
    c = a - b ∧ b ≤ a := by
  unfold checkedSub at h
  split at h <;> simp_all

theorem lookupA_insertA_self {α β : Type} [DecidableEq α]
    (l : List (α × β)) (k : α) (v : β) : lookupA (insertA l k v) k = some v := by
  induction l with
  | nil => simp [insertA, lookupA]
  | cons hd tl ih =>
      obtain ⟨k', v'⟩ := hd
      by_cases h : k = k'
      · simp [insertA, h, lookupA]
      · simp [insertA, h, lookupA, ih]

theorem lookupA_some_mem {α β : Type} [DecidableEq α]
    {l : List (α × β)} {k : α} {v : β} (h : lookupA l k = some v) : (k, v) ∈ l := by
  induction l with
  | nil => simp [lookupA] at h
  | cons hd tl ih =>
      obtain ⟨k', v'⟩ := hd
      by_cases hk : k = k'
      · simp only [lookupA, if_pos hk, Option.some.injEq] at h
        subst hk; subst h; exact List.mem_cons_self _ _
      · simp only [lookupA, if_neg hk] at h
        exact List.mem_cons_of_mem _ (ih h)

theorem mem_insertA {α β : Type} [DecidableEq α]
    {l : List (α × β)} {k : α} {v : β} {p : α × β}
    (h : p ∈ insertA l k v) : p = (k, v) ∨ p ∈ l := by
  induction l with
  | nil => simp [insertA] at h; simp [h]
  | cons hd tl ih =>
      obtain ⟨k', v'⟩ := hd
      by_cases hk : k = k'
      · simp only [insertA, if_pos hk, List.mem_cons] at h
        rcases h with h | h
        · exact Or.inl h
        · exact Or.inr (List.mem_cons_of_mem _ h)
      · simp only [insertA, if_neg hk, List.mem_cons] at h
        rcases h with h | h
        · exact Or.inr (by simp [h])
        · rcases ih h with h' | h'
          · exact Or.inl h'
          · exact Or.inr (List.mem_cons_of_mem _ h')

theorem can_add_amount_iff (b : AccountBalance) (amt : Nat) :
    b.can_add_amount amt = true ↔ b.unlocked + b.locked.amount + amt ≤ U64MAX := by
  simp only [AccountBalance.can_add_amount, checkedAdd, Nat.zero_add]
  by_cases h1 : b.unlocked ≤ U64MAX
  · rw [if_pos h1]
    by_cases h2 : b.unlocked + b.locked.amount ≤ U64MAX
    · simp only [Option.some_bind, if_pos h2]
      by_cases h3 : b.unlocked + b.locked.amount + amt ≤ U64MAX
      · simp [h3]
      · simp [h3]
    · simp only [Option.some_bind, if_neg h2, Option.none_bind]
      simp only [Option.isSome_none, Bool.false_eq_true, false_iff]
      omega
  · rw [if_neg h1]
    simp only [Option.none_bind, Option.isSome_none, Bool.false_eq_true, false_iff]
    omega

/-! ### Claim theorems -/

/-- C1: withdraw validation fails with `UnavaliableFunds{amount, available}`
exactly when the amount exceeds the account's unlocked balance (an absent
record counts as zero); on success it returns the amount with fee 0 and the
account's key as the sole required signer; in both cases the store is
unchanged. -/
theorem validate_withdraw_gating (s : Store) (w : AccountWithdrawal) :
    ((validateInput s w).2 = s) ∧
    ((∃ e, (validateInput s w).1 = Except.error e) ↔ unlockedOf s w.account < w.amount) ∧
    (unlockedOf s w.account < w.amount →
      (validateInput s w).1 =
        Except.error (WithdrawalError.unavaliableFunds w.amount (unlockedOf s w.account))) ∧
    (¬ unlockedOf s w.account < w.amount →
      (validateInput s w).1 =
        Except.ok { amount := { amount := w.amount, fee := 0 }, pukKeys := [w.account] }) := by
  unfold validateInput unlockedOf
  by_cases h : ((lookupA s.accounts w.account).map AccountBalance.unlocked).getD 0 < w.amount
  · simp [h]
  · simp [h]

/-- C1 witness: with `unlocked = 100`, validating a withdrawal of 101 fails
with `UnavaliableFunds{101, 100}` and leaves the store unchanged. -/
theorem validate_withdraw_gating_witness :
    (validateInput storeC1 { account := 1, amount := 101 }).1 =
      Except.error (WithdrawalError.unavaliableFunds 101 100) ∧
    (validateInput storeC1 { account := 1, amount := 101 }).2 = storeC1 := by
  have h := validate_withdraw_gating storeC1 { account := 1, amount := 101 }
  refine ⟨?_, h.1⟩
  have h2 := h.2.2.1 (by decide)
  simpa using h2

/-- C2: deposit validation fails with `DepositTooLarge` exactly when an
account record is present and `unlocked + |locked| + amount` overflows u64
msats; `DepositTooLarge` is the only possible failure; otherwise it returns
the amount with fee 0; in all cases the store is unchanged. -/
theorem validate_deposit_overflow_guard (s : Store) (d : AccountDeposit) :
    ((validateOutput s d).2 = s) ∧
    ((validateOutput s d).1 = Except.error StabilityPoolError.depositTooLarge ↔
      ∃ b, lookupA s.accounts d.account = some b ∧
        U64MAX < b.unlocked + b.locked.amount + d.amount) ∧
    (∀ e, (validateOutput s d).1 = Except.error e → e = StabilityPoolError.depositTooLarge) ∧
    (¬ (∃ b, lookupA s.accounts d.account = some b ∧
          U64MAX < b.unlocked + b.locked.amount + d.amount) →
      (validateOutput s d).1 = Except.ok { amount := d.amount, fee := 0 }) := by
  cases hl : lookupA s.accounts d.account with
  | none => simp [validateOutput, hl]
  | some b =>
      by_cases hc : b.can_add_amount d.amount
      · have hle := (can_add_amount_iff b d.amount).1 hc
        simp [validateOutput, hl, hc]
        omega
      · have hgt : U64MAX < b.unlocked + b.locked.amount + d.amount := by
          by_contra hle2
          exact hc ((can_add_amount_iff b d.amount).2 (by omega))
        simp [validateOutput, hl, hc]
        omega

/-- C2 witness: starting from `unlocked = u64::MAX - 5`, validating a
deposit of amount 10 yields `DepositTooLarge` with no state change. -/
theorem validate_deposit_overflow_guard_witness :
    (validateOutput storeC2 { account := 1, amount := 10 }).1 =
      Except.error StabilityPoolError.depositTooLarge ∧
    (validateOutput storeC2 { account := 1, amount := 10 }).2 = storeC2 := by
  have h := validate_deposit_overflow_guard storeC2 { account := 1, amount := 10 }
  refine ⟨?_, h.1⟩
  exact h.2.1.2 ⟨{ unlocked := U64MAX - 5, locked := LockedBalance.none }, by decide, by decide⟩

/-- C4: `can_add_amount` succeeds exactly when `unlocked + |locked| + amount`
fits in u64, and the no-overflow invariant I1 on account records is
preserved by `apply_input` (withdrawals only decrease `unlocked`) and by
`apply_output` (deposits are guarded by the `can_add_amount` check). -/
theorem balance_overflow_invariant :
    (∀ (b : AccountBalance) (amt : Nat),
      b.can_add_amount amt = true ↔ b.unlocked + b.locked.amount + amt ≤ U64MAX) ∧
    (∀ (s : Store) (w : AccountWithdrawal),
      storeInv s → storeInv (applyInput s w).2) ∧
    (∀ (s : Store) (d : AccountDeposit) (outpoint : Nat),
      storeInv s → storeInv (applyOutput s d outpoint).2) := by
  refine ⟨can_add_amount_iff, ?_, ?_⟩
  · intro s w hs
    unfold applyInput
    split
    · exact hs
    · dsimp only
      split
      · exact hs
      · rename_i meta u' hsub
        obtain ⟨hu', hle⟩ := checkedSub_eq_some hsub
        intro p hp
        dsimp only at hp
        rcases mem_insertA hp with hpe | hpm
        · subst hpe
          cases hacc : lookupA s.accounts w.account with
          | none =>
              simp only [hacc, Option.getD_none, AccountBalance.default] at hu' ⊢
              simp only [LockedBalance.amount]
              simp [hu', U64MAX]
          | some b =>
              have hb := hs _ (lookupA_some_mem hacc)
              simp only [hacc, Option.getD_some] at hu' ⊢
              dsimp only at hb ⊢
              omega
        · exact hs _ hpm
  · intro s d outpoint hs
    unfold applyOutput
    split
    · exact hs
    · rename_i txo hv
      dsimp only
      split
      · exact hs
      · rename_i u' hadd
        obtain ⟨hu', hle⟩ := checkedAdd_eq_some hadd
        split
        · exact hs
        · intro p hp
          dsimp only at hp
          rcases mem_insertA hp with hpe | hpm
          · subst hpe
            cases hacc : lookupA s.accounts d.account with
            | none =>
                simp only [hacc, Option.getD_none, AccountBalance.default] at hu' hle ⊢
                simp only [LockedBalance.amount]
                omega
            | some b =>
                have hcan : b.can_add_amount d.amount = true := by
                  unfold validateOutput at hv
                  rw [hacc] at hv
                  by_cases hc : b.can_add_amount d.amount
                  · exact hc
                  · simp [hc] at hv
                have hsum := (can_add_amount_iff b d.amount).1 hcan
                simp only [hacc, Option.getD_some] at hu' hle ⊢
                omega
          · exact hs _ hpm

/-- C4 witness: `can_add_amount` agrees with the u64 bound on a concrete
record, and a concrete store satisfying the invariant keeps satisfying it
after a withdrawal and after a deposit. -/
theorem balance_overflow_invariant_witness :
    ((AccountBalance.mk 3 (LockedBalance.seeker 4)).can_add_amount 5 = true ∧
      3 + (LockedBalance.seeker 4).amount + 5 ≤ U64MAX) ∧
    storeInv (applyInput storeC1 { account := 1, amount := 40 }).2 ∧
    storeInv (applyOutput storeC1 { account := 1, amount := 60 } 0).2 := by
  refine ⟨⟨?_, ?_⟩, ?_, ?_⟩
  · exact (balance_overflow_invariant.1 _ 5).2 (by decide)
  · decide
  · exact balance_overflow_invariant.2.1 storeC1 _ (by decide)
  · exact balance_overflow_invariant.2.2 storeC1 _ 0 (by decide)


/-- Computation of a successful `apply_output`: when validation passed, the
balance fits and the outpoint is fresh, the deposit credits `unlocked` and
records the outpoint mapping. -/
theorem applyOutput_eq_ok (s : Store) (d : AccountDeposit) (outpoint : Nat)
    (b : AccountBalance)
    (hacc : (lookupA s.accounts d.account).getD AccountBalance.default = b)
    (hle : b.unlocked + d.amount ≤ U64MAX)
    (hval : (validateOutput s d).1 = Except.ok { amount := d.amount, fee := 0 })
    (hfresh : lookupA s.depositOutcomes outpoint = Option.none) :
    applyOutput s d outpoint =
      (OutputApplyOutcome.ok { amount := d.amount, fee := 0 },
       { s with
           accounts :=
             insertA s.accounts d.account (AccountBalance.mk (b.unlocked + d.amount) b.locked),
           depositOutcomes := insertA s.depositOutcomes outpoint d.account }) := by
  have hca : checkedAdd b.unlocked d.amount = some (b.unlocked + d.amount) := by
    unfold checkedAdd
    rw [if_pos hle]
  unfold applyOutput
  rw [hval]
  dsimp only
  rw [hacc, hca]
  dsimp only
  unfold insertNewA
  rw [hfresh]

/-- Computation of a successful `apply_input`: when the account record
exists and covers the amount, the withdrawal debits `unlocked`. -/
theorem applyInput_eq_ok (s : Store) (w : AccountWithdrawal) (b : AccountBalance)
    (hacc : lookupA s.accounts w.account = some b)
    (hge : w.amount ≤ b.unlocked) :
    applyInput s w =
      (InputApplyOutcome.ok
        { amount := { amount := w.amount, fee := 0 }, pukKeys := [w.account] },
       { s with accounts :=
           insertA s.accounts w.account (AccountBalance.mk (b.unlocked - w.amount) b.locked) }) := by
  have hvi : (validateInput s w).1 =
      Except.ok { amount := { amount := w.amount, fee := 0 }, pukKeys := [w.account] } := by
    unfold validateInput
    rw [hacc]
    simp only [Option.map_some', Option.getD_some]
    rw [if_neg (by omega)]
  have hcs : checkedSub b.unlocked w.amount = some (b.unlocked - w.amount) := by
    unfold checkedSub
    rw [if_pos hge]
  unfold applyInput
  rw [hvi]
  rw [hacc]
  simp only [Option.getD_some]
  rw [hcs]

/-- C3 counterexample: starting with no account record, a validated deposit
of 5 at a fresh outpoint followed by a withdrawal of 5 leaves a stored
balance record (`some {unlocked := 0, locked := None}`) where there was
none, so the balance record is not strictly equal to its pre-deposit
state. -/
theorem deposit_withdraw_roundtrip_counterexample :
    (validateOutput Store.empty { account := 0, amount := 5 }).1 =
      Except.ok { amount := 5, fee := 0 } ∧
    lookupA Store.empty.depositOutcomes 0 = Option.none ∧
    lookupA Store.empty.accounts 0 = Option.none ∧
    (applyOutput Store.empty { account := 0, amount := 5 } 0).1 =
      OutputApplyOutcome.ok { amount := 5, fee := 0 } ∧
    (applyInput (applyOutput Store.empty { account := 0, amount := 5 } 0).2
        { account := 0, amount := 5 }).1 =
      InputApplyOutcome.ok { amount := { amount := 5, fee := 0 }, pukKeys := [0] } ∧
    lookupA (applyInput (applyOutput Store.empty { account := 0, amount := 5 } 0).2
        { account := 0, amount := 5 }).2.accounts 0 ≠ lookupA Store.empty.accounts 0 := by
  decide

/-- C3 (amended): applying a validated deposit at a fresh outpoint and then
a withdrawal of the same amount succeeds and leaves the account's balance
record equal to the pre-deposit record when one existed; when no record
existed, the final record is the default zero record
`{unlocked := 0, locked := None}` (present where no record was before). -/
theorem deposit_withdraw_roundtrip (s : Store) (d : AccountDeposit) (outpoint : Nat)
    (hval : (validateOutput s d).1 = Except.ok { amount := d.amount, fee := 0 })
    (hfresh : lookupA s.depositOutcomes outpoint = Option.none)
    (hamt : d.amount ≤ U64MAX) :
    (applyOutput s d outpoint).1 = OutputApplyOutcome.ok { amount := d.amount, fee := 0 } ∧
    (applyInput (applyOutput s d outpoint).2
        { account := d.account, amount := d.amount }).1 =
      InputApplyOutcome.ok
        { amount := { amount := d.amount, fee := 0 }, pukKeys := [d.account] } ∧
    lookupA (applyInput (applyOutput s d outpoint).2
        { account := d.account, amount := d.amount }).2.accounts d.account =
      some ((lookupA s.accounts d.account).getD AccountBalance.default) := by
  cases hacc : lookupA s.accounts d.account with
  | some b0 =>
      have hcan : b0.can_add_amount d.amount = true := by
        unfold validateOutput at hval
        rw [hacc] at hval
        by_cases hc : b0.can_add_amount d.amount
        · exact hc
        · simp [hc] at hval
      have hsum := (can_add_amount_iff b0 d.amount).1 hcan
      have hgd : (lookupA s.accounts d.account).getD AccountBalance.default = b0 := by
        rw [hacc]
        rfl
      have e1 := applyOutput_eq_ok s d outpoint b0 hgd (by omega) hval hfresh
      rw [e1]
      dsimp only
      have hlook1 := lookupA_insertA_self s.accounts d.account
        (AccountBalance.mk (b0.unlocked + d.amount) b0.locked)
      have e2 := applyInput_eq_ok
        { s with
            accounts :=
              insertA s.accounts d.account (AccountBalance.mk (b0.unlocked + d.amount) b0.locked),
            depositOutcomes := insertA s.depositOutcomes outpoint d.account }
        { account := d.account, amount := d.amount }
        (AccountBalance.mk (b0.unlocked + d.amount) b0.locked)
        hlook1 (by dsimp only; omega)
      rw [e2]
      dsimp only
      refine ⟨rfl, rfl, ?_⟩
      rw [lookupA_insertA_self]
      simp [Nat.add_sub_cancel]
  | none =>
      have hgd : (lookupA s.accounts d.account).getD AccountBalance.default =
          AccountBalance.default := by
        rw [hacc]
        rfl
      have e1 := applyOutput_eq_ok s d outpoint AccountBalance.default hgd
        (by simp only [AccountBalance.default]; omega) hval hfresh
      rw [e1]
      dsimp only
      have hlook1 := lookupA_insertA_self s.accounts d.account
        (AccountBalance.mk (AccountBalance.default.unlocked + d.amount) AccountBalance.default.locked)
      have e2 := applyInput_eq_ok
        { s with
            accounts :=
              insertA s.accounts d.account
                (AccountBalance.mk (AccountBalance.default.unlocked + d.amount) AccountBalance.default.locked),
            depositOutcomes := insertA s.depositOutcomes outpoint d.account }
        { account := d.account, amount := d.amount }
        (AccountBalance.mk (AccountBalance.default.unlocked + d.amount) AccountBalance.default.locked)
        hlook1 (by dsimp only; omega)
      rw [e2]
      dsimp only
      refine ⟨rfl, rfl, ?_⟩
      rw [lookupA_insertA_self]
      simp [Nat.add_sub_cancel, AccountBalance.default]

/-- C3 witness (for the amended claim): a concrete deposit of 5 to an
account holding 100 unlocked, followed by a withdrawal of 5, restores the
original record. -/
theorem deposit_withdraw_roundtrip_witness :
    (applyOutput storeC1 { account := 1, amount := 5 } 0).1 =
      OutputApplyOutcome.ok { amount := 5, fee := 0 } ∧
    (applyInput (applyOutput storeC1 { account := 1, amount := 5 } 0).2
        { account := 1, amount := 5 }).1 =
      InputApplyOutcome.ok { amount := { amount := 5, fee := 0 }, pukKeys := [1] } ∧
    lookupA (applyInput (applyOutput storeC1 { account := 1, amount := 5 } 0).2
        { account := 1, amount := 5 }).2.accounts 1 =
      some { unlocked := 100, locked := LockedBalance.none } := by
  have h := deposit_withdraw_roundtrip storeC1 { account := 1, amount := 5 } 0
    (by decide) (by decide) (by decide)
  exact ⟨h.1, h.2.1, h.2.2⟩

/-- C7: evaluating the deposit-path scenario.  On an empty store, applying
the deposit `{account := 7, amount := 1_000_000}` at outpoint 1 succeeds,
credits the account, records the outpoint mapping and makes
`output_status` return the account — but the `/account` handler then
panics (`expect("must exist")`): the record exists, so the handler
unconditionally reads `epoch_outcomes[current_epoch_id]`, which is absent
in a fresh store. -/
theorem deposit_path_account_handler_panics :
    (applyOutput Store.empty { account := 7, amount := 1000000 } 1).1 =
      OutputApplyOutcome.ok { amount := 1000000, fee := 0 } ∧
    lookupA (applyOutput Store.empty { account := 7, amount := 1000000 } 1).2.accounts 7 =
      some { unlocked := 1000000, locked := LockedBalance.none } ∧
    lookupA (applyOutput Store.empty { account := 7, amount := 1000000 } 1).2.depositOutcomes 1 =
      some 7 ∧
    outputStatus (applyOutput Store.empty { account := 7, amount := 1000000 } 1).2 1 =
      some { account := 7 } ∧
    lookupA (applyOutput Store.empty { account := 7, amount := 1000000 } 1).2.epochOutcomes
      (currentEpochId (applyOutput Store.empty { account := 7, amount := 1000000 } 1).2) =
      Option.none ∧
    accountHandler (applyOutput Store.empty { account := 7, amount := 1000000 } 1).2 7 =
      Option.none := by
  decide

/-- C9: for an account with no stored balance record, the `/account`
handler returns `{unlocked: 0, locked: None}` without panicking, and the
result does not depend on the epoch outcome records at all (they are never
read on this path). -/
theorem account_endpoint_no_record (s : Store) (accountId : Nat)
    (h : lookupA s.accounts accountId = Option.none) :
    accountHandler s accountId = some { unlocked := 0, locked := Option.none } ∧
    ∀ eo, accountHandler { s with epochOutcomes := eo } accountId =
      some { unlocked := 0, locked := Option.none } := by
  constructor
  · simp only [accountHandler, h]
  · intro eo
    have h' : lookupA ({ s with epochOutcomes := eo } : Store).accounts accountId =
        Option.none := h
    simp only [accountHandler, h']

/-- Concrete store for the `/account`-handler witnesses: account 1 has a
record, the current epoch is 2, `epoch_outcomes[2]` exists and
`epoch_outcomes[1]` is settled at 9000; account 2 has no record. -/
def storeC10 : Store :=
  { Store.empty with
      accounts := [(1, { unlocked := 5, locked := LockedBalance.none })],
      lastEnded := some 1,
      epochOutcomes :=
        [(2, { feerate := 0, seekerTotal := 0, providerTotal := 0,
               settledPrice := Option.none }),
         (1, { feerate := 0, seekerTotal := 0, providerTotal := 0,
               settledPrice := some 9000 })] }

/-- C9 witness: account 2 has no record in `storeC10`; the handler answers
`{unlocked: 0, locked: None}`. -/
theorem account_endpoint_no_record_witness :
    accountHandler storeC10 2 = some { unlocked := 0, locked := Option.none } :=
  (account_endpoint_no_record storeC10 2 (by decide)).1

/-- C10: whenever a balance record exists for the queried account — even
with `locked = None` — the `/account` handler returns a response exactly
when `epoch_outcomes[current_epoch_id]` exists and
`epoch_outcomes[current_epoch_id - 1]` exists with a settled price; in
every other case it panics (the `expect` calls). -/
theorem account_endpoint_reads_epoch (s : Store) (accountId : Nat) (b : AccountBalance)
    (h : lookupA s.accounts accountId = some b) :
    ((accountHandler s accountId).isSome = true ↔
      ((lookupA s.epochOutcomes (currentEpochId s)).isSome = true ∧
       ∃ po, lookupA s.epochOutcomes (currentEpochId s - 1) = some po ∧
         po.settledPrice.isSome = true)) := by
  simp only [accountHandler, h]
  cases hco : lookupA s.epochOutcomes (currentEpochId s) with
  | none => simp [hco]
  | some oc =>
      cases hpo : lookupA s.epochOutcomes (currentEpochId s - 1) with
      | none => simp [hpo]
      | some po =>
          cases hsp : po.settledPrice with
          | none => simp [hpo, hsp]
          | some p =>
              cases hl : b.locked <;> simp [hpo, hsp, hl]

/-- C10 witness: in `storeC10` account 1 has a record with `locked = None`,
both epoch outcome records exist and the previous epoch is settled, so the
handler returns a response. -/
theorem account_endpoint_reads_epoch_witness :
    (accountHandler storeC10 1).isSome = true :=
  (account_endpoint_reads_epoch storeC10 1
      { unlocked := 5, locked := LockedBalance.none } (by decide)).mpr
    ⟨by decide,
     ⟨{ feerate := 0, seekerTotal := 0, providerTotal := 0, settledPrice := some 9000 },
      by decide, by decide⟩⟩

/-- C8: a successful `apply_output` records the outpoint → account mapping,
and because the record is written with `insert_new_entry`, a second deposit
applied at the same outpoint never succeeds: it fails, the transaction
aborts (the store is unchanged), and the stored mapping for the outpoint
still names the first deposit's account. -/
theorem applyOutput_outpoint_unique (s : Store) (d : AccountDeposit) (outpoint : Nat)
    (a : TransactionItemAmount) (s1 : Store) (d2 : AccountDeposit)
    (h1 : applyOutput s d outpoint = (OutputApplyOutcome.ok a, s1)) :
    lookupA s1.depositOutcomes outpoint = some d.account ∧
    (∀ r, (applyOutput s1 d2 outpoint).1 ≠ OutputApplyOutcome.ok r) ∧
    (applyOutput s1 d2 outpoint).2 = s1 ∧
    lookupA (applyOutput s1 d2 outpoint).2.depositOutcomes outpoint = some d.account := by
  have hmap : lookupA s1.depositOutcomes outpoint = some d.account := by
    unfold applyOutput at h1
    split at h1
    · simp at h1
    · dsimp only at h1
      split at h1
      · simp at h1
      · rename_i hins
        split at h1
        · simp at h1
        · rename_i dep hdep
          unfold insertNewA at hdep
          split at hdep
          · simp at hdep
          · rename_i hfresh
            rw [Prod.mk.injEq] at h1
            obtain ⟨-, hs1⟩ := h1
            subst hs1
            injection hdep with hdep'
            subst hdep'
            exact lookupA_insertA_self _ _ _
  have hdup : insertNewA s1.depositOutcomes outpoint d2.account = Option.none := by
    unfold insertNewA
    rw [hmap]
  refine ⟨hmap, ?_, ?_, ?_⟩
  · intro r
    unfold applyOutput
    split
    · intro hc; exact OutputApplyOutcome.noConfusion hc
    · dsimp only
      split
      · intro hc; exact OutputApplyOutcome.noConfusion hc
      · rw [hdup]
        intro hc; exact OutputApplyOutcome.noConfusion hc
  · unfold applyOutput
    split
    · rfl
    · dsimp only
      split
      · rfl
      · rw [hdup]
  · unfold applyOutput
    split
    · exact hmap
    · dsimp only
      split
      · exact hmap
      · rw [hdup]
        exact hmap

/-- C8 witness: depositing `{account := 3, amount := 10}` at outpoint 5 on
an empty store records the mapping; a second deposit
`{account := 4, amount := 20}` at the same outpoint does not succeed, the
store is unchanged and the mapping still names account 3. -/
theorem applyOutput_outpoint_unique_witness :
    lookupA (applyOutput Store.empty { account := 3, amount := 10 } 5).2.depositOutcomes 5 =
      some 3 ∧
    (applyOutput (applyOutput Store.empty { account := 3, amount := 10 } 5).2
        { account := 4, amount := 20 } 5).2 =
      (applyOutput Store.empty { account := 3, amount := 10 } 5).2 ∧
    (applyOutput (applyOutput Store.empty { account := 3, amount := 10 } 5).2
        { account := 4, amount := 20 } 5).1 ≠
      OutputApplyOutcome.ok { amount := 20, fee := 0 } := by
  have h := applyOutput_outpoint_unique Store.empty { account := 3, amount := 10 } 5
    { amount := 10, fee := 0 } (applyOutput Store.empty { account := 3, amount := 10 } 5).2
    { account := 4, amount := 20 } (by decide)
  exact ⟨h.1, h.2.2.1, h.2.1 { amount := 20, fee := 0 }⟩

/-- C5: the `/action_propose` ingress rejects with `BadRequest` exactly
when the signature is invalid, the epoch id differs from the staging epoch,
or the most recent known action for the account (pending pool first, then
the persisted staged action) has the same epoch and a sequence at or above
the request's; otherwise it inserts the request into the in-memory pending
pool, overwriting any prior entry for the account.  The persisted store is
never written. -/
theorem propose_action_sequencing (s : Store) (pool : PendingPool)
    (request : ActionProposed) :
    ((proposeAction s pool request).2 = s) ∧
    (badProposalB s pool request = true →
      (proposeAction s pool request).1 = Except.error ApiError.badRequest) ∧
    (badProposalB s pool request = false →
      (proposeAction s pool request).1 =
        Except.ok (insertA pool request.accountId request)) := by
  unfold proposeAction badProposalB
  by_cases h1 : request.sigValid = false
  · simp [h1]
  · have h1' : request.sigValid = true := by
      revert h1
      cases request.sigValid <;> simp
    by_cases h2 : request.epochId = stagingEpochId s
    · cases hmr : mostRecentAction s pool request.accountId with
      | none => simp [h1', h2, hmr]
      | some recent =>
          by_cases h3a : stagingEpochId s = recent.epochId
          · by_cases h3b : request.sequence ≤ recent.sequence
            · simp [h1', h2, hmr, h3a, h3b]
            · simp [h1', h2, hmr, h3a, h3b]
          · simp [h1', h2, hmr, h3a]
    · simp [h1', h2]

/-- C5 witness: with staging epoch 2, submitting `{epoch=2, seq=5}` is
accepted into the pool; a following `{epoch=2, seq=4}` is rejected with
`BadRequest`; a following `{epoch=2, seq=6}` is accepted and overwrites the
pool entry; the store is never touched. -/
theorem propose_action_sequencing_witness :
    (proposeAction storeC5 [] reqSeq5).1 = Except.ok [(9, reqSeq5)] ∧
    (proposeAction storeC5 [(9, reqSeq5)] reqSeq4).1 = Except.error ApiError.badRequest ∧
    (proposeAction storeC5 [(9, reqSeq5)] reqSeq6).1 = Except.ok [(9, reqSeq6)] ∧
    (proposeAction storeC5 [(9, reqSeq5)] reqSeq4).2 = storeC5 := by
  refine ⟨?_, ?_, ?_, (propose_action_sequencing storeC5 [(9, reqSeq5)] reqSeq4).1⟩
  · have h := (propose_action_sequencing storeC5 [] reqSeq5).2.2 (by decide)
    simpa using h
  · exact (propose_action_sequencing storeC5 [(9, reqSeq5)] reqSeq4).2.1 (by decide)
  · have h := (propose_action_sequencing storeC5 [(9, reqSeq5)] reqSeq6).2.2 (by decide)
    simpa using h

/-- C6: when a vote for the current epoch from a peer that has not yet
voted for it brings the recorded vote count to the configured
`price_threshold`, the epoch closes: the item is Applied, the epoch
outcome's settled price is the median of all recorded votes (the element
at index `(n-1)/2` of the ascending sort — the lower of the two middle
values for an even count), and `last_ended` and `last_settled` advance to
the closed epoch. -/
theorem epoch_finalization_median (threshold : Nat) (s : Store) (peer : Nat)
    (item : EpochEnd)
    (hcur : item.epochId = currentEpochId s)
    (hnd : isDoubleVote s peer = false)
    (hthresh : threshold ≤
      (votesFor (insertA s.epochEndVotes peer item) (currentEpochId s)).length) :
    (processEpochEnd threshold s peer item).1 = ConsensusItemOutcome.applied ∧
    lookupA (processEpochEnd threshold s peer item).2.epochOutcomes (currentEpochId s) =
      some { feerate := 0, seekerTotal := 0, providerTotal := 0,
             settledPrice := some (medianPrice
               (votesFor (insertA s.epochEndVotes peer item) (currentEpochId s))) } ∧
    (processEpochEnd threshold s peer item).2.lastEnded = some (currentEpochId s) ∧
    (processEpochEnd threshold s peer item).2.lastSettled = some (currentEpochId s) := by
  unfold processEpochEnd
  rw [hcur]
  simp only [lt_irrefl, if_false, hnd, Bool.false_eq_true, hthresh, if_true]
  simp [lookupA_insertA_self]

/-- C6 witness: with `price_threshold = 3` and recorded votes 9800 and
10000 for epoch 1, the vote `{epoch_id = 1, price = 10200}` from peer 2
closes epoch 1 with settled price 10000 (the median), and
`last_ended = last_settled = 1`. -/
theorem epoch_finalization_median_witness :
    (processEpochEnd 3 storeC6 2 { epochId := 1, price := 10200 }).1 =
      ConsensusItemOutcome.applied ∧
    lookupA (processEpochEnd 3 storeC6 2 { epochId := 1, price := 10200 }).2.epochOutcomes 1 =
      some { feerate := 0, seekerTotal := 0, providerTotal := 0,
             settledPrice := some 10000 } ∧
    (processEpochEnd 3 storeC6 2 { epochId := 1, price := 10200 }).2.lastEnded = some 1 ∧
    (processEpochEnd 3 storeC6 2 { epochId := 1, price := 10200 }).2.lastSettled = some 1 := by
  have h := epoch_finalization_median 3 storeC6 2 { epochId := 1, price := 10200 }
    (by decide) (by decide) (by decide)
  exact ⟨h.1, h.2.1, h.2.2.1, h.2.2.2⟩
